import Mathlib

/-!
# Verification of the streaming view-query row dispatcher (`xs/viewrow.c`)

Shallow embedding of the query-handle / row-dispatcher core of
`xs/viewrow.c`.  The handle is a Perl array (`AV *req`) whose slots
(`PLCB_VHIDX_*`) hold the raw-row accumulator and the terminal fields; the
dispatcher `viewrow_callback` is the callback libcouchbase invokes once per
row and once for the final event.  Perl scalars are modelled by `SVal`,
wire payloads (`const char *s` / `size_t n` pairs) by `Option (List Nat)`
where `none` is a NULL pointer and the list holds the `n` bytes pointed to.

The consumer callback (`PLCB_VHIDX_PRIVCB`, invoked by `invoke_row` under
`G_EVAL`) is external Perl code; its only effects visible to this C file
are whether it raises (in which case `invoke_row` warns and continues) —
modelled by a fault oracle `f : Nat → Bool` indexed by a global invocation
counter — and the sequence of invocations it receives, recorded in
`DState.calls`.
-/

set_option autoImplicit false

namespace ViewRow

/-- A Perl scalar value as this file produces them: `&PL_sv_undef`,
`&PL_sv_yes`, an IV (`newSViv`), or a byte string with its UTF-8 flag. -/
inductive SVal where
  | undef
  | yes
  | int (i : Int)
  | str (bytes : List Nat) (utf8 : Bool)
  deriving DecidableEq, Repr

/-- A wire payload handed to the callback: `none` models a NULL `char *`
pointer; `some bs` a non-NULL pointer to the `n = bs.length` bytes `bs`. -/
abbrev Bytes := Option (List Nat)

/-- `sv_from_rowdata(s, n)` (viewrow.c:57-67): wraps the buf:length pair as
an SV; `if (s && n)` it copies the bytes and sets `SvUTF8_on`, otherwise it
returns `&PL_sv_undef`. -/
def sv_from_rowdata : Bytes → SVal
  | some bs => if bs ≠ [] then SVal.str bs true else SVal.undef
  | none => SVal.undef

/-- Perl's `newSVpvn(s, n)`: copies the `n` bytes at `s` verbatim (no UTF-8
flag); when `s` is NULL, `sv_setpvn` turns the SV off (`SvOK_off`), so the
result is the undefined value whatever `n` is. -/
def newSVpvn : Bytes → SVal
  | some bs => .str bs false
  | none => SVal.undef

/-- Perl's `av_len`: highest index of the array, `-1` when empty. -/
def av_len {α : Type} (l : List α) : Int := (l.length : Int) - 1

/-- The per-row document sub-response `resp->docresp`
(`lcb_RESPVIEWQUERY`'s embedded get-response): status and payload. -/
structure DocResp where
  rc : Nat
  value : Bytes
  deriving DecidableEq, Repr

/-- `LCB_SUCCESS` is status code `0`. -/
def LCB_SUCCESS : Nat := 0

/-- One event delivered by the engine to `viewrow_callback`: the fields of
`lcb_RESPVIEWQUERY` that the dispatcher reads.  `final` models
`resp->rflags & LCB_RESP_F_FINAL`; `htresp` models the optional HTTP
sub-response (`resp->htresp->htstatus` when present). -/
structure Resp where
  final : Bool
  rc : Int
  key : Bytes
  value : Bytes
  geometry : Bytes
  docid : Bytes
  docresp : Option DocResp
  htresp : Option Int
  deriving DecidableEq, Repr

/-- The decoded row hash built at viewrow.c:96-106: keys `key`, `value`,
`geometry`, `id` are always stored; `__doc__` is stored only when
`resp->docresp && resp->docresp->rc == LCB_SUCCESS` (`doc = none` means the
hash key is absent). -/
structure RowData where
  key : SVal
  value : SVal
  geometry : SVal
  id : SVal
  doc : Option SVal
  deriving DecidableEq, Repr

/-- Decoding of one row event into the `rowdata` hash (viewrow.c:96-106). -/
def mkRow (resp : Resp) : RowData where
  key := sv_from_rowdata resp.key
  value := sv_from_rowdata resp.value
  geometry := sv_from_rowdata resp.geometry
  id := sv_from_rowdata resp.docid
  doc :=
    match resp.docresp with
    | some d => if d.rc = LCB_SUCCESS then some (newSVpvn d.value) else none
    | none => none

/-- The query handle: the `AV *req` slots this file touches.
`rowbuf` is `PLCB_VHIDX_ROWBUF` (initialised empty, never written by the
dispatcher), `rawrows` is `PLCB_VHIDX_RAWROWS`, and the last four are
`PLCB_VHIDX_ISDONE` / `_RC` / `_META` / `_HTCODE`, which `av_fill` leaves
as undef at creation. -/
structure Handle where
  rowbuf : List RowData
  rawrows : List RowData
  isDone : SVal
  rc : SVal
  meta : SVal
  htcode : SVal
  deriving DecidableEq, Repr

/-- `rowreq_init_common` (viewrow.c:5-12): fresh handle with empty row
buffers; the terminal slots are the undef fill of `av_fill`. -/
def rowreq_init_common : Handle where
  rowbuf := []
  rawrows := []
  isDone := SVal.undef
  rc := SVal.undef
  meta := SVal.undef
  htcode := SVal.undef

/-- One invocation of the consumer callback as `invoke_row` performs it:
with the row-array argument (`rowsrv` non-NULL — a batch, possibly empty)
or without it (the terminal "no more rows" notification). -/
inductive Invocation where
  | batch (rows : List RowData)
  | done
  deriving DecidableEq, Repr

/-- Dispatch state threaded through callback invocations: the handle, the
chronological list of consumer invocations, the number of warnings logged
for consumer faults, and the global invocation counter that indexes the
fault oracle. -/
structure DState where
  handle : Handle
  calls : List Invocation
  warnings : Nat
  ninv : Nat
  deriving DecidableEq, Repr

/-- State right after `rowreq_init_common`, before any callback. -/
def initState : DState where
  handle := rowreq_init_common
  calls := []
  warnings := 0
  ninv := 0

/-- `invoke_row` (viewrow.c:22-54): calls the consumer under
`G_DISCARD|G_EVAL` with `(reqrv, rowsrv?)`; if `ERRSV` is true it `warn`s
(the error never escapes the eval); then, when `rowsrv` was passed, it
`av_clear`s the row array.  The fault oracle `f` says whether invocation
number `ninv` raised. -/
def invoke_row (f : Nat → Bool) (st : DState) (withRows : Bool) : DState where
  handle := if withRows then { st.handle with rawrows := [] } else st.handle
  calls := st.calls ++ [if withRows then .batch st.handle.rawrows else .done]
  warnings := st.warnings + (if f st.ninv then 1 else 0)
  ninv := st.ninv + 1

/-- `viewrow_callback` (viewrow.c:69-112).  Final event: flush the
accumulator (unconditionally), store `ISDONE := &PL_sv_yes`,
`RC := newSViv(resp->rc)`, `META := sv_from_rowdata(resp->value, nvalue)`,
`HTCODE` when `resp->htresp`, then the no-rows notification.  Row event:
decode, push onto `rawrows`, and flush when `av_len(rawrows) >= 20`.
(The `SvREFCNT_dec(req_rv)` releasing the engine's cookie reference is not
part of this state.) -/
def viewrow_callback (f : Nat → Bool) (st : DState) (resp : Resp) : DState :=
  if resp.final then
    let st1 := invoke_row f st true
    let st2 : DState :=
      { st1 with
          handle :=
            { st1.handle with
                isDone := .yes
                rc := .int resp.rc
                meta := sv_from_rowdata resp.value
                htcode :=
                  match resp.htresp with
                  | some c => .int c
                  | none => st1.handle.htcode } }
    invoke_row f st2 false
  else
    let st1 : DState :=
      { st with handle := { st.handle with rawrows := st.handle.rawrows ++ [mkRow resp] } }
    if av_len st1.handle.rawrows ≥ 20 then invoke_row f st1 true else st1

/-- Run the dispatcher over a sequence of engine events, from a fresh
handle. -/
def dispatch (f : Nat → Bool) (events : List Resp) : DState :=
  events.foldl (viewrow_callback f) initState

/-- The fault oracle of a consumer callback that never raises. -/
def noFaults : Nat → Bool := fun _ => false

/-- The rows an invocation hands to the consumer. -/
def batchRows : Invocation → List RowData
  | .batch rs => rs
  | .done => []

/-- All rows delivered across the invocations, in delivery order. -/
def flatRows (calls : List Invocation) : List RowData :=
  (calls.map batchRows).flatten

/-- Sizes of the non-empty row batches, in delivery order. -/
def nonEmptyBatchSizes (calls : List Invocation) : List Nat :=
  calls.filterMap fun c =>
    match c with
    | .batch rs => if rs.length = 0 then none else some rs.length
    | .done => none

/-- Whether an invocation is the terminal "no more rows" notification. -/
def isDoneCall : Invocation → Bool
  | .batch _ => false
  | .done => true

/-- How many terminal notifications the consumer received. -/
def doneCount (calls : List Invocation) : Nat := calls.countP isDoneCall

/-- A generic row event used to instantiate scenarios. -/
def plainRow : Resp where
  final := false
  rc := 0
  key := some [107]
  value := some [118]
  geometry := none
  docid := some [105]
  docresp := none
  htresp := none

/-- A successful final event with an HTTP 200 sub-response. -/
def finalOk : Resp where
  final := true
  rc := 0
  key := none
  value := none
  geometry := none
  docid := none
  docresp := none
  htresp := some 200

/-- A row event whose document sub-response succeeded but carries a NULL
payload pointer. -/
def rowNullDoc : Resp :=
  { plainRow with docresp := some { rc := LCB_SUCCESS, value := none } }

/-- A row event whose document sub-response succeeded with a non-NULL,
zero-length payload. -/
def rowEmptyDoc : Resp :=
  { plainRow with docresp := some { rc := LCB_SUCCESS, value := some [] } }

/-- A row event whose document sub-response failed (non-success status). -/
def rowFailedDoc : Resp :=
  { plainRow with docresp := some { rc := 12, value := some [100] } }

/-- The error `die("Couldn't issue view query: (0x%x): %s", rc, ...)`
raises at viewrow.c:138: the engine's status code and its message. -/
structure SubmissionError where
  rc : Nat
  msg : String
  deriving DecidableEq, Repr

/-- Outcome of `PLCB__viewhandle_new`: either the blessed handle or the
`die`-raised error, together with the reference counts still held on the
blessed handle SV and on the `cbrv` cookie (the correlation token) when
the call returns, so that "released synchronously" is observable. -/
structure NewOutcome where
  result : Except SubmissionError Handle
  blessedRefs : Nat
  cbrvRefs : Nat
  deriving Repr

/-- `SvREFCNT_dec`: drop one strong reference. -/
def SvREFCNT_dec (n : Nat) : Nat := n - 1

/-- `PLCB__viewhandle_new` (viewrow.c:114-141).  `newRV_noinc` leaves the
blessed handle with refcount 1; `cbrv = newSVsv(blessed)` is a fresh SV
with refcount 1, registered with the engine as the cookie by
`lcb_view_query` (the submit call, whose status is `submit_rc` here).  On
non-success both references are dropped before `die` raises; on success
the blessed handle is returned and the engine keeps the cookie. -/
def PLCB__viewhandle_new (strerror : Nat → String) (submit_rc : Nat) : NewOutcome :=
  let req := rowreq_init_common
  let blessedRefs := 1
  let cbrvRefs := 1
  let rc := submit_rc
  if rc ≠ LCB_SUCCESS then
    { result := Except.error { rc := rc, msg := strerror rc }
      blessedRefs := SvREFCNT_dec blessedRefs
      cbrvRefs := SvREFCNT_dec cbrvRefs }
  else
    { result := Except.ok req, blessedRefs := blessedRefs, cbrvRefs := cbrvRefs }

/-! ## Basic lemmas about the delivery bookkeeping -/

theorem flatRows_append (xs ys : List Invocation) :
    flatRows (xs ++ ys) = flatRows xs ++ flatRows ys := by
  simp [flatRows]

theorem flatRows_batch_done (rs : List RowData) :
    flatRows [Invocation.batch rs, Invocation.done] = rs := by
  simp [flatRows, batchRows]

theorem flatRows_batch (rs : List RowData) :
    flatRows [Invocation.batch rs] = rs := by
  simp [flatRows, batchRows]

theorem nonEmptyBatchSizes_append (xs ys : List Invocation) :
    nonEmptyBatchSizes (xs ++ ys) = nonEmptyBatchSizes xs ++ nonEmptyBatchSizes ys := by
  simp [nonEmptyBatchSizes]

theorem doneCount_append (xs ys : List Invocation) :
    doneCount (xs ++ ys) = doneCount xs + doneCount ys := by
  simp [doneCount, List.countP_append]

theorem nonEmptyBatchSizes_all21 (calls : List Invocation)
    (h : ∀ c ∈ calls, ∃ b, c = Invocation.batch b ∧ b.length = 21) :
    nonEmptyBatchSizes calls = List.replicate calls.length 21 := by
  induction calls with
  | nil => rfl
  | cons c cs ih =>
    obtain ⟨b, rfl, hb⟩ := h c (by simp)
    have hrest := ih fun x hx => h x (by simp [hx])
    rw [show (Invocation.batch b :: cs) = [Invocation.batch b] ++ cs from rfl,
      nonEmptyBatchSizes_append, hrest]
    have hb2 : b ≠ [] := by intro h0; rw [h0] at hb; simp at hb
    simp [nonEmptyBatchSizes, List.filterMap_cons, hb, hb2, List.replicate_succ]

theorem doneCount_all_batch (calls : List Invocation)
    (h : ∀ c ∈ calls, ∃ b, c = Invocation.batch b ∧ b.length = 21) :
    doneCount calls = 0 :=
  List.countP_eq_zero.mpr fun c hc => by
    obtain ⟨b, rfl, _⟩ := h c hc
    simp [isDoneCall]

theorem sv_from_rowdata_absent (b : Bytes) (h : b = none ∨ b = some []) :
    sv_from_rowdata b = SVal.undef := by
  rcases h with h | h <;> subst h <;> simp [sv_from_rowdata]

theorem sv_from_rowdata_nonempty (bs : List Nat) (h : bs ≠ []) :
    sv_from_rowdata (some bs) = SVal.str bs true := by
  simp [sv_from_rowdata, h]

/-! ## Step characterizations of `viewrow_callback` -/

/-- The final branch (viewrow.c:81-94), on any state: one unconditional
flush of the accumulator, the four terminal stores, one no-rows
notification. -/
theorem final_step (f : Nat → Bool) (st : DState) (fe : Resp) (hfe : fe.final = true) :
    viewrow_callback f st fe =
      { handle :=
          { st.handle with
              rawrows := []
              isDone := SVal.yes
              rc := SVal.int fe.rc
              meta := sv_from_rowdata fe.value
              htcode :=
                match fe.htresp with
                | some c => SVal.int c
                | none => st.handle.htcode }
        calls := st.calls ++ [Invocation.batch st.handle.rawrows, Invocation.done]
        warnings := st.warnings + (if f st.ninv then 1 else 0) + (if f (st.ninv + 1) then 1 else 0)
        ninv := st.ninv + 2 } := by
  simp [viewrow_callback, hfe, invoke_row]

/-- The row branch (viewrow.c:96-110), on any state: decode, append, and
the delivered-vs-buffered total grows by exactly the new row, whether or
not the threshold flush fires. -/
theorem row_step_append (f : Nat → Bool) (st : DState) (resp : Resp)
    (h : resp.final = false) :
    flatRows (viewrow_callback f st resp).calls ++ (viewrow_callback f st resp).handle.rawrows
      = flatRows st.calls ++ st.handle.rawrows ++ [mkRow resp] := by
  simp only [viewrow_callback, h, Bool.false_eq_true, if_false]
  split
  · simp [invoke_row, flatRows_append, flatRows, batchRows]
  · simp

/-! ## The row phase: state after a run of non-final events -/

/-- Invariant of the streaming phase, from a fresh handle: the accumulator
holds the last `N % 21` rows, every flushed batch held exactly 21 rows
(`av_len >= 20` fires at the 21st push), batches-then-buffer is the full
arrival sequence, no terminal notification has been sent, and the terminal
slots are still the undef fill. -/
theorem rowPhase (f : Nat → Bool) (evs : List Resp) (h : ∀ e ∈ evs, e.final = false) :
    (dispatch f evs).handle.rawrows.length = evs.length % 21 ∧
    flatRows (dispatch f evs).calls ++ (dispatch f evs).handle.rawrows = evs.map mkRow ∧
    (dispatch f evs).calls.length = evs.length / 21 ∧
    (∀ c ∈ (dispatch f evs).calls, ∃ b, c = Invocation.batch b ∧ b.length = 21) ∧
    (dispatch f evs).handle.isDone = SVal.undef ∧
    (dispatch f evs).handle.rc = SVal.undef ∧
    (dispatch f evs).handle.meta = SVal.undef ∧
    (dispatch f evs).handle.htcode = SVal.undef ∧
    (dispatch f evs).handle.rowbuf = [] := by
  induction evs using List.reverseRecOn with
  | nil => simp [dispatch, initState, rowreq_init_common, flatRows]
  | append_singleton l a ih =>
    have ha : a.final = false := h a (by simp)
    have hl : ∀ e ∈ l, e.final = false := fun e he => h e (by simp [he])
    obtain ⟨hlen, hflat, hcalls, hall, hd, hrc, hm, hht, hrb⟩ := ih hl
    have hstep : dispatch f (l ++ [a]) = viewrow_callback f (dispatch f l) a := by
      simp [dispatch, List.foldl_append]
    rw [hstep]
    simp only [viewrow_callback, ha, Bool.false_eq_true, if_false]
    by_cases hmod : l.length % 21 = 20
    · have hcond : av_len ((dispatch f l).handle.rawrows ++ [mkRow a]) ≥ 20 := by
        simp [av_len, hlen, hmod]
      rw [if_pos hcond]
      refine ⟨by simp [invoke_row]; omega, ?_, ?_, ?_, ?_⟩
      · simp only [invoke_row, if_true]
        rw [flatRows_append, flatRows_batch, List.append_nil, ← List.append_assoc, hflat]
        simp
      · simp only [invoke_row]
        simp only [List.length_append, List.length_cons, List.length_nil]
        omega
      · intro c hc
        simp only [invoke_row, List.mem_append, List.mem_singleton] at hc
        rcases hc with hc | hc
        · exact hall c hc
        · exact ⟨(dispatch f l).handle.rawrows ++ [mkRow a], hc, by simp [hlen, hmod]⟩
      · simp [invoke_row, hd, hrc, hm, hht, hrb]
    · have hlt : l.length % 21 < 20 := by omega
      have hcond : ¬ av_len ((dispatch f l).handle.rawrows ++ [mkRow a]) ≥ 20 := by
        simp only [av_len, List.length_append, List.length_cons, List.length_nil, hlen]
        omega
      rw [if_neg hcond]
      refine ⟨?_, ?_, ?_, hall, hd, hrc, hm, hht, hrb⟩
      · simp only [List.length_append, List.length_cons, List.length_nil, hlen]
        omega
      · simp [← List.append_assoc, hflat]
      · simp only [List.length_append, List.length_cons, List.length_nil, hcalls]
        omega

/-! ## The consumer-invocation record does not depend on consumer faults -/

/-- One dispatcher step: the handle, the invocation record and the
invocation counter are computed without consulting the fault oracle (the
oracle only feeds the warning counter). -/
theorem viewrow_callback_indep (f g : Nat → Bool) (e : Resp) (st st' : DState)
    (hh : st.handle = st'.handle) (hc : st.calls = st'.calls) (hn : st.ninv = st'.ninv) :
    (viewrow_callback f st e).handle = (viewrow_callback g st' e).handle ∧
    (viewrow_callback f st e).calls = (viewrow_callback g st' e).calls ∧
    (viewrow_callback f st e).ninv = (viewrow_callback g st' e).ninv := by
  by_cases hf : e.final = true
  · simp [viewrow_callback, hf, invoke_row, hh, hc, hn]
  · simp only [Bool.not_eq_true] at hf
    simp only [viewrow_callback, hf, Bool.false_eq_true, if_false, hh, hc, hn]
    split
    · simp [invoke_row]
    · simp

/-- Folding the dispatcher over any event list preserves the agreement of
handle, invocation record and counter between two fault oracles. -/
theorem foldl_indep (evs : List Resp) (f g : Nat → Bool) :
    ∀ st st' : DState, st.handle = st'.handle → st.calls = st'.calls → st.ninv = st'.ninv →
      (evs.foldl (viewrow_callback f) st).handle = (evs.foldl (viewrow_callback g) st').handle ∧
      (evs.foldl (viewrow_callback f) st).calls = (evs.foldl (viewrow_callback g) st').calls ∧
      (evs.foldl (viewrow_callback f) st).ninv = (evs.foldl (viewrow_callback g) st').ninv := by
  induction evs with
  | nil => intro st st' hh hc hn; exact ⟨hh, hc, hn⟩
  | cons e rest ih =>
    intro st st' hh hc hn
    obtain ⟨hh1, hc1, hn1⟩ := viewrow_callback_indep f g e st st' hh hc hn
    simpa [List.foldl_cons] using ih _ _ hh1 hc1 hn1

/-- What the consumer observes (invocations and handle contents) is the
same whether or not some invocations fault. -/
theorem dispatch_indep (f g : Nat → Bool) (evs : List Resp) :
    (dispatch f evs).handle = (dispatch g evs).handle ∧
    (dispatch f evs).calls = (dispatch g evs).calls ∧
    (dispatch f evs).ninv = (dispatch g evs).ninv :=
  foldl_indep evs f g initState initState rfl rfl rfl

/-! ## Warnings: every consumer fault is logged, nothing else -/

theorem invoke_row_warnings (f : Nat → Bool) (st : DState) (b : Bool)
    (h : st.warnings = (List.range st.ninv).countP f) :
    (invoke_row f st b).warnings = (List.range (invoke_row f st b).ninv).countP f := by
  simp [invoke_row, List.range_succ, List.countP_append, List.countP_cons, h]

theorem viewrow_callback_warnings (f : Nat → Bool) (e : Resp) (st : DState)
    (h : st.warnings = (List.range st.ninv).countP f) :
    (viewrow_callback f st e).warnings
      = (List.range (viewrow_callback f st e).ninv).countP f := by
  by_cases hf : e.final = true
  · rw [final_step f st e hf]
    simpa [invoke_row] using
      invoke_row_warnings f (invoke_row f st true) false (invoke_row_warnings f st true h)
  · simp only [Bool.not_eq_true] at hf
    simp only [viewrow_callback, hf, Bool.false_eq_true, if_false]
    split
    · exact invoke_row_warnings f _ true h
    · exact h

theorem dispatch_warnings (f : Nat → Bool) (evs : List Resp) :
    (dispatch f evs).warnings = (List.range (dispatch f evs).ninv).countP f := by
  suffices hgen : ∀ st : DState, st.warnings = (List.range st.ninv).countP f →
      (evs.foldl (viewrow_callback f) st).warnings
        = (List.range (evs.foldl (viewrow_callback f) st).ninv).countP f from
    hgen initState (by simp [initState])
  induction evs with
  | nil => intro st h; exact h
  | cons e rest ih =>
    intro st h
    simpa [List.foldl_cons] using ih _ (viewrow_callback_warnings f e st h)

/-! ## Further bookkeeping helpers -/

theorem getLast_batch_done (xs : List Invocation) (rs : List RowData) :
    (xs ++ [Invocation.batch rs, Invocation.done]).getLast? = some Invocation.done := by
  rw [show xs ++ [Invocation.batch rs, Invocation.done]
      = (xs ++ [Invocation.batch rs]) ++ [Invocation.done] by simp]
  exact List.getLast?_concat _

theorem doneCount_batch_done (rs : List RowData) :
    doneCount [Invocation.batch rs, Invocation.done] = 1 := by
  simp [doneCount, List.countP_cons, isDoneCall]

theorem nonEmptyBatchSizes_batch_done (rs : List RowData) :
    nonEmptyBatchSizes [Invocation.batch rs, Invocation.done]
      = if rs.length = 0 then [] else [rs.length] := by
  by_cases h0 : rs.length = 0
  · have : rs = [] := List.length_eq_zero.mp h0
    simp [nonEmptyBatchSizes, this]
  · have : rs ≠ [] := fun hnil => h0 (by rw [hnil]; rfl)
    simp [nonEmptyBatchSizes, h0, this]

theorem dispatch_append_final (f : Nat → Bool) (evs : List Resp) (fe : Resp) :
    dispatch f (evs ++ [fe]) = viewrow_callback f (dispatch f evs) fe := by
  simp [dispatch, List.foldl_append]

/-! ## The claims -/

set_option maxRecDepth 4000 in
/-- C1, counterexample: with 25 row events and one final event the
consumer receives non-empty batches of sizes [21, 4], not [20, 5] — the
flush condition `av_len(rawrows) >= 20` fires at the 21st buffered row,
since `av_len` is the highest index, not the length. -/
theorem batch_sizes_25_not_20_5 :
    nonEmptyBatchSizes (dispatch noFaults (List.replicate 25 plainRow ++ [finalOk])).calls
      = [21, 4] ∧
    nonEmptyBatchSizes (dispatch noFaults (List.replicate 25 plainRow ++ [finalOk])).calls
      ≠ [20, 5] := by
  decide

/-- C1 (amended): the effective batch threshold is 21 rows.  For every
query of N row events followed by one final event, the consumer receives
⌈N / 21⌉ non-empty batches — each streaming flush carries exactly 21 rows
and the terminal flush carries the remaining N mod 21 — followed by
exactly one terminal notification, the last invocation; the total row
count across batches equals N; for N = 25 the sizes are [21, 4]. -/
theorem batching_ceil21 (f : Nat → Bool) (evs : List Resp) (fe : Resp)
    (h : ∀ e ∈ evs, e.final = false) (hfe : fe.final = true) :
    nonEmptyBatchSizes (dispatch f (evs ++ [fe])).calls
      = List.replicate (evs.length / 21) 21
          ++ (if evs.length % 21 = 0 then [] else [evs.length % 21]) ∧
    (nonEmptyBatchSizes (dispatch f (evs ++ [fe])).calls).length
      = (evs.length + 20) / 21 ∧
    (flatRows (dispatch f (evs ++ [fe])).calls).length = evs.length ∧
    (dispatch f (evs ++ [fe])).calls.getLast? = some Invocation.done ∧
    doneCount (dispatch f (evs ++ [fe])).calls = 1 := by
  obtain ⟨hlen, hflat, hcalls, hall, -⟩ := rowPhase f evs h
  have hfs := final_step f (dispatch f evs) fe hfe
  have hceq : (dispatch f (evs ++ [fe])).calls
      = (dispatch f evs).calls
          ++ [Invocation.batch (dispatch f evs).handle.rawrows, Invocation.done] := by
    rw [dispatch_append_final, hfs]
  have hsizes : nonEmptyBatchSizes (dispatch f (evs ++ [fe])).calls
      = List.replicate (evs.length / 21) 21
          ++ (if evs.length % 21 = 0 then [] else [evs.length % 21]) := by
    rw [hceq, nonEmptyBatchSizes_append, nonEmptyBatchSizes_all21 _ hall, hcalls,
      nonEmptyBatchSizes_batch_done, hlen]
  have hflat2 : flatRows (dispatch f (evs ++ [fe])).calls = evs.map mkRow := by
    rw [hceq, flatRows_append, flatRows_batch_done, hflat]
  refine ⟨hsizes, ?_, ?_, ?_, ?_⟩
  · rw [hsizes]
    by_cases h0 : evs.length % 21 = 0 <;> simp [h0] <;> omega
  · rw [hflat2, List.length_map]
  · rw [hceq]; exact getLast_batch_done _ _
  · rw [hceq, doneCount_append, doneCount_all_batch _ hall, doneCount_batch_done]

/-- C1 witness: the amended batching law instantiated at Scenario A
(25 rows then a successful final event). -/
theorem batching_ceil21_witness :
    nonEmptyBatchSizes (dispatch noFaults (List.replicate 25 plainRow ++ [finalOk])).calls
      = List.replicate ((List.replicate 25 plainRow).length / 21) 21
          ++ (if (List.replicate 25 plainRow).length % 21 = 0 then []
              else [(List.replicate 25 plainRow).length % 21]) ∧
    doneCount (dispatch noFaults (List.replicate 25 plainRow ++ [finalOk])).calls = 1 := by
  have h := batching_ceil21 noFaults (List.replicate 25 plainRow) finalOk
    (fun e he => by rw [List.eq_of_mem_replicate he]; rfl) rfl
  exact ⟨h.1, h.2.2.2.2⟩

/-- C2, counterexample: for a query with zero row events the consumer does
receive an empty-batch invocation before the terminal notification — the
final-event flush at viewrow.c:84 is unconditional. -/
theorem zero_rows_empty_flush :
    (dispatch noFaults [finalOk]).calls = [Invocation.batch [], Invocation.done] ∧
    (dispatch noFaults [finalOk]).calls ≠ [Invocation.done] := by
  decide

/-- C2 (amended): on the final event the dispatcher always performs the
flush invocation, handing the consumer exactly the buffered rows (an empty
batch when none are buffered); afterwards the accumulator is empty.  For
zero row events the consumer therefore receives one empty batch and then
the terminal notification, with both buffers empty. -/
theorem final_flush_unconditional (f : Nat → Bool) (st : DState) (fe : Resp)
    (hfe : fe.final = true) :
    (viewrow_callback f st fe).calls
      = st.calls ++ [Invocation.batch st.handle.rawrows, Invocation.done] ∧
    (viewrow_callback f st fe).handle.rawrows = [] ∧
    (dispatch f [fe]).calls = [Invocation.batch [], Invocation.done] ∧
    (dispatch f [fe]).handle.rawrows = [] ∧
    (dispatch f [fe]).handle.rowbuf = [] := by
  have h1 := final_step f st fe hfe
  have hd : dispatch f [fe] = viewrow_callback f initState fe := rfl
  have h2 := final_step f initState fe hfe
  refine ⟨by rw [h1], by rw [h1], ?_, ?_, ?_⟩ <;> rw [hd, h2] <;> rfl

/-- C2 witness: the unconditional terminal flush applied to a state with
one buffered row and to the zero-row scenario. -/
theorem final_flush_unconditional_witness :
    (viewrow_callback noFaults (dispatch noFaults [plainRow]) finalOk).calls
      = (dispatch noFaults [plainRow]).calls
          ++ [Invocation.batch (dispatch noFaults [plainRow]).handle.rawrows,
              Invocation.done] ∧
    (dispatch noFaults [finalOk]).calls = [Invocation.batch [], Invocation.done] :=
  ⟨(final_flush_unconditional noFaults (dispatch noFaults [plainRow]) finalOk rfl).1,
   (final_flush_unconditional noFaults (dispatch noFaults [plainRow]) finalOk rfl).2.2.1⟩

/-- C3: a consumer callback fault never escapes `invoke_row`'s eval
boundary: the invocation record and the handle are exactly those of a
fault-free run, every fault is logged as a warning (one warning per
faulted invocation, by invocation index), and when the event sequence ends
with a final event the terminal notification is still the last
invocation. -/
theorem consumer_fault_isolated (f : Nat → Bool) (evs : List Resp) :
    (dispatch f evs).calls = (dispatch noFaults evs).calls ∧
    (dispatch f evs).handle = (dispatch noFaults evs).handle ∧
    (dispatch f evs).warnings = (List.range (dispatch f evs).ninv).countP f ∧
    (∀ fe : Resp, fe.final = true →
      (dispatch f (evs ++ [fe])).calls.getLast? = some Invocation.done) := by
  obtain ⟨hh, hc, -⟩ := dispatch_indep f noFaults evs
  refine ⟨hc, hh, dispatch_warnings f evs, ?_⟩
  intro fe hfe
  have hceq : (dispatch f (evs ++ [fe])).calls
      = (dispatch f evs).calls
          ++ [Invocation.batch (dispatch f evs).handle.rawrows, Invocation.done] := by
    rw [dispatch_append_final, final_step f (dispatch f evs) fe hfe]
  rw [hceq]
  exact getLast_batch_done _ _

/-- C3 witness: an always-faulting consumer observes the same invocations
as a fault-free one, and the terminal notification still arrives. -/
theorem consumer_fault_isolated_witness :
    (dispatch (fun _ => true) [plainRow, finalOk]).calls
      = (dispatch noFaults [plainRow, finalOk]).calls ∧
    (dispatch (fun _ => true) ([plainRow] ++ [finalOk])).calls.getLast?
      = some Invocation.done :=
  ⟨(consumer_fault_isolated (fun _ => true) [plainRow, finalOk]).1,
   (consumer_fault_isolated (fun _ => true) [plainRow]).2.2.2 finalOk rfl⟩

/-- C4: across all intermediate flushes and the terminal flush, the
concatenation of the delivered batches is exactly the decoded rows in
arrival order, and nothing is left buffered — flush is a non-reordering,
non-duplicating, non-dropping drain. -/
theorem rows_in_arrival_order (f : Nat → Bool) (evs : List Resp) (fe : Resp)
    (h : ∀ e ∈ evs, e.final = false) (hfe : fe.final = true) :
    flatRows (dispatch f (evs ++ [fe])).calls = evs.map mkRow ∧
    (dispatch f (evs ++ [fe])).handle.rawrows = [] := by
  obtain ⟨-, hflat, -⟩ := rowPhase f evs h
  have hfs := final_step f (dispatch f evs) fe hfe
  have hceq : (dispatch f (evs ++ [fe])).calls
      = (dispatch f evs).calls
          ++ [Invocation.batch (dispatch f evs).handle.rawrows, Invocation.done] := by
    rw [dispatch_append_final, hfs]
  refine ⟨?_, by rw [dispatch_append_final, hfs]⟩
  rw [hceq, flatRows_append, flatRows_batch_done, hflat]

/-- C4 witness: the order-preservation law at three rows then the final
event. -/
theorem rows_in_arrival_order_witness :
    flatRows (dispatch noFaults (List.replicate 3 plainRow ++ [finalOk])).calls
      = (List.replicate 3 plainRow).map mkRow ∧
    (dispatch noFaults (List.replicate 3 plainRow ++ [finalOk])).handle.rawrows = [] :=
  rows_in_arrival_order noFaults (List.replicate 3 plainRow) finalOk
    (fun e he => by rw [List.eq_of_mem_replicate he]; rfl) rfl

/-- C5: a row field whose source pointer is NULL or whose length is zero is
stored as the explicit undef value, not as an empty buffer, for each of
key, value, geometry and document id; a non-empty payload is stored with
the UTF-8 flag set. -/
theorem absent_field_decoding (resp : Resp) :
    ((resp.key = none ∨ resp.key = some []) → (mkRow resp).key = SVal.undef) ∧
    ((resp.value = none ∨ resp.value = some []) → (mkRow resp).value = SVal.undef) ∧
    ((resp.geometry = none ∨ resp.geometry = some []) → (mkRow resp).geometry = SVal.undef) ∧
    ((resp.docid = none ∨ resp.docid = some []) → (mkRow resp).id = SVal.undef) ∧
    (∀ bs : List Nat, bs ≠ [] →
      (resp.key = some bs → (mkRow resp).key = SVal.str bs true) ∧
      (resp.value = some bs → (mkRow resp).value = SVal.str bs true) ∧
      (resp.geometry = some bs → (mkRow resp).geometry = SVal.str bs true) ∧
      (resp.docid = some bs → (mkRow resp).id = SVal.str bs true)) := by
  refine ⟨fun h => sv_from_rowdata_absent _ h, fun h => sv_from_rowdata_absent _ h,
    fun h => sv_from_rowdata_absent _ h, fun h => sv_from_rowdata_absent _ h,
    fun bs hbs => ⟨?_, ?_, ?_, ?_⟩⟩
  · intro h; show sv_from_rowdata resp.key = _; rw [h]
    exact sv_from_rowdata_nonempty bs hbs
  · intro h; show sv_from_rowdata resp.value = _; rw [h]
    exact sv_from_rowdata_nonempty bs hbs
  · intro h; show sv_from_rowdata resp.geometry = _; rw [h]
    exact sv_from_rowdata_nonempty bs hbs
  · intro h; show sv_from_rowdata resp.docid = _; rw [h]
    exact sv_from_rowdata_nonempty bs hbs

/-- C5 witness: the decoding policy at a row with an absent geometry and a
one-byte key. -/
theorem absent_field_decoding_witness :
    (mkRow plainRow).geometry = SVal.undef ∧ (mkRow plainRow).key = SVal.str [107] true :=
  ⟨(absent_field_decoding plainRow).2.2.1 (Or.inl rfl),
   ((absent_field_decoding plainRow).2.2.2.2 [107] (by decide)).1 rfl⟩

/-- C6: the embedded document is attached iff the document sub-response
carries the success status; on any failure status the `__doc__` key is
simply absent while key and value are still decoded from the row event,
and the row is still appended and delivered (the row step adds exactly
this row to the delivered-or-buffered sequence). -/
theorem doc_gated_by_status (f : Nat → Bool) (st : DState) (resp : Resp) (d : DocResp)
    (hrow : resp.final = false) (hdoc : resp.docresp = some d) :
    (((mkRow resp).doc ≠ none) ↔ d.rc = LCB_SUCCESS) ∧
    (d.rc ≠ LCB_SUCCESS →
      (mkRow resp).doc = none ∧
      (mkRow resp).key = sv_from_rowdata resp.key ∧
      (mkRow resp).value = sv_from_rowdata resp.value) ∧
    flatRows (viewrow_callback f st resp).calls ++ (viewrow_callback f st resp).handle.rawrows
      = flatRows st.calls ++ st.handle.rawrows ++ [mkRow resp] := by
  refine ⟨?_, ?_, row_step_append f st resp hrow⟩
  · by_cases h0 : d.rc = LCB_SUCCESS <;> simp [mkRow, hdoc, h0]
  · intro h0
    exact ⟨by simp [mkRow, hdoc, h0], rfl, rfl⟩

/-- C6 witness: a row whose document sub-response failed (status 12) still
has its key decoded, carries no `__doc__`, and is appended. -/
theorem doc_gated_by_status_witness :
    (mkRow rowFailedDoc).doc = none ∧
    (mkRow rowFailedDoc).key = sv_from_rowdata rowFailedDoc.key ∧
    flatRows (viewrow_callback noFaults initState rowFailedDoc).calls
        ++ (viewrow_callback noFaults initState rowFailedDoc).handle.rawrows
      = flatRows initState.calls ++ initState.handle.rawrows ++ [mkRow rowFailedDoc] := by
  have h := doc_gated_by_status noFaults initState rowFailedDoc
    { rc := 12, value := some [100] } rfl rfl
  exact ⟨(h.2.1 (by decide)).1, (h.2.1 (by decide)).2.1, h.2.2⟩

/-- C7: when the submit call returns a non-success status,
`PLCB__viewhandle_new` fails with the engine's status code and message,
and both the blessed handle reference and the `cbrv` cookie (correlation
token) are released synchronously before the failure is raised; on
success the handle is returned with both references held. -/
theorem submission_failure_sync_release (strerror : Nat → String) (submit_rc : Nat)
    (h : submit_rc ≠ LCB_SUCCESS) :
    (PLCB__viewhandle_new strerror submit_rc).result
      = Except.error { rc := submit_rc, msg := strerror submit_rc } ∧
    (PLCB__viewhandle_new strerror submit_rc).blessedRefs = 0 ∧
    (PLCB__viewhandle_new strerror submit_rc).cbrvRefs = 0 ∧
    (PLCB__viewhandle_new strerror LCB_SUCCESS).result = Except.ok rowreq_init_common ∧
    (PLCB__viewhandle_new strerror LCB_SUCCESS).blessedRefs = 1 ∧
    (PLCB__viewhandle_new strerror LCB_SUCCESS).cbrvRefs = 1 := by
  have h0 : ¬ (submit_rc = 0) := h
  simp [PLCB__viewhandle_new, h0, SvREFCNT_dec, LCB_SUCCESS]

/-- C7 witness: a rejected submission with status 23. -/
theorem submission_failure_sync_release_witness :
    (PLCB__viewhandle_new (fun _ => "could not issue view query") 23).result
      = Except.error { rc := 23, msg := "could not issue view query" } ∧
    (PLCB__viewhandle_new (fun _ => "could not issue view query") 23).blessedRefs = 0 ∧
    (PLCB__viewhandle_new (fun _ => "could not issue view query") 23).cbrvRefs = 0 := by
  have h := submission_failure_sync_release (fun _ => "could not issue view query") 23
    (by decide)
  exact ⟨h.1, h.2.1, h.2.2.1⟩

/-- C8: at creation `isDone`, `resultCode`, `metaValue` and `httpStatus`
are unset (undef); they stay unset after every prefix of the row-event
phase; the single final event sets `isDone` to yes and writes the terminal
fields — so each is written exactly once, at the terminal event, and
`isDone` is never reset during a well-formed event sequence. -/
theorem terminal_fields_write_once (f : Nat → Bool) (evs : List Resp) (fe : Resp)
    (h : ∀ e ∈ evs, e.final = false) (hfe : fe.final = true) :
    (rowreq_init_common.isDone = SVal.undef ∧ rowreq_init_common.rc = SVal.undef ∧
      rowreq_init_common.meta = SVal.undef ∧ rowreq_init_common.htcode = SVal.undef) ∧
    (∀ k : Nat,
      (dispatch f (List.take k evs)).handle.isDone = SVal.undef ∧
      (dispatch f (List.take k evs)).handle.rc = SVal.undef ∧
      (dispatch f (List.take k evs)).handle.meta = SVal.undef ∧
      (dispatch f (List.take k evs)).handle.htcode = SVal.undef) ∧
    ((dispatch f (evs ++ [fe])).handle.isDone = SVal.yes ∧
      (dispatch f (evs ++ [fe])).handle.rc = SVal.int fe.rc ∧
      (dispatch f (evs ++ [fe])).handle.meta = sv_from_rowdata fe.value) := by
  refine ⟨⟨rfl, rfl, rfl, rfl⟩, ?_, ?_⟩
  · intro k
    have hk : ∀ e ∈ List.take k evs, e.final = false :=
      fun e he => h e (List.take_subset k evs he)
    obtain ⟨-, -, -, -, hd2, hrc, hm, hht, -⟩ := rowPhase f (List.take k evs) hk
    exact ⟨hd2, hrc, hm, hht⟩
  · rw [dispatch_append_final, final_step f (dispatch f evs) fe hfe]
    exact ⟨rfl, rfl, rfl⟩

/-- C8 witness: the write-once discipline at one row then the successful
final event. -/
theorem terminal_fields_write_once_witness :
    (dispatch noFaults (List.take 1 [plainRow])).handle.isDone = SVal.undef ∧
    (dispatch noFaults ([plainRow] ++ [finalOk])).handle.isDone = SVal.yes ∧
    (dispatch noFaults ([plainRow] ++ [finalOk])).handle.rc = SVal.int finalOk.rc := by
  have h := terminal_fields_write_once noFaults [plainRow] finalOk
    (fun e he => by rw [List.mem_singleton.mp he]; rfl) rfl
  exact ⟨(h.2.1 1).1, h.2.2.1, h.2.2.2.1⟩

/-- C9, counterexample: the dispatcher has no guard against events after
completion — a second final event re-runs the whole terminal path, so the
consumer's completion notification is invoked twice. -/
theorem double_final_double_done :
    doneCount (dispatch noFaults [finalOk, finalOk]).calls = 2 ∧
    ¬ doneCount (dispatch noFaults [finalOk, finalOk]).calls ≤ 1 := by
  decide

/-- C9 (amended): the code contains no completed-state check: on a handle
whose `isDone` is already yes, a final event runs the terminal path again
in full — another flush invocation, another completion notification (one
more `done` in the record) — rather than being rejected as a fatal
internal-consistency error.  Only the engine's contract of exactly one
final event per query prevents the double invocation (which in the real
program would also touch a handle whose engine reference was already
released). -/
theorem terminal_path_unguarded (f : Nat → Bool) (st : DState) (fe : Resp)
    (hfe : fe.final = true) (_hdone : st.handle.isDone = SVal.yes) :
    (viewrow_callback f st fe).calls
      = st.calls ++ [Invocation.batch st.handle.rawrows, Invocation.done] ∧
    doneCount (viewrow_callback f st fe).calls = doneCount st.calls + 1 ∧
    (viewrow_callback f st fe).handle.isDone = SVal.yes := by
  have h1 := final_step f st fe hfe
  have hceq : (viewrow_callback f st fe).calls
      = st.calls ++ [Invocation.batch st.handle.rawrows, Invocation.done] := by rw [h1]
  refine ⟨hceq, ?_, by rw [h1]⟩
  rw [hceq, doneCount_append, doneCount_batch_done]

/-- C9 witness: a second final event delivered to the already-completed
zero-row handle re-invokes the completion notification. -/
theorem terminal_path_unguarded_witness :
    (viewrow_callback noFaults (dispatch noFaults [finalOk]) finalOk).calls
      = (dispatch noFaults [finalOk]).calls
          ++ [Invocation.batch (dispatch noFaults [finalOk]).handle.rawrows,
              Invocation.done] ∧
    doneCount (viewrow_callback noFaults (dispatch noFaults [finalOk]) finalOk).calls
      = doneCount (dispatch noFaults [finalOk]).calls + 1 := by
  have h := terminal_path_unguarded noFaults (dispatch noFaults [finalOk]) finalOk rfl
    (by decide)
  exact ⟨h.1, h.2.1⟩

/-- C10, counterexample: a successful document sub-response whose payload
pointer is NULL yields `__doc__` present with the undefined value — Perl's
`newSVpvn(NULL, n)` leaves the SV undef — not a present-but-empty byte
string as claimed. -/
theorem null_docpayload_is_undef :
    (mkRow rowNullDoc).doc = some SVal.undef ∧
    (mkRow rowNullDoc).doc ≠ some (SVal.str [] false) := by
  decide

/-- C10 (amended): the embedded document payload of a successful
sub-response is stored verbatim via `newSVpvn` — no absent-for-empty rule
and no UTF-8 flag: a zero-length non-NULL payload is stored as a
present-but-empty string, while a NULL payload pointer makes the stored
value undef (the `__doc__` key still present); the terminal `metaValue`
does go through `sv_from_rowdata`, so empty terminal metadata is stored as
absent. -/
theorem doc_verbatim_meta_filtered (resp : Resp) (d : DocResp)
    (hdoc : resp.docresp = some d) (hrc : d.rc = LCB_SUCCESS) :
    (mkRow resp).doc = some (newSVpvn d.value) ∧
    (∀ bs : List Nat, newSVpvn (some bs) = SVal.str bs false) ∧
    newSVpvn (none : Bytes) = SVal.undef ∧
    (∀ (f : Nat → Bool) (st : DState) (fe : Resp), fe.final = true →
      (viewrow_callback f st fe).handle.meta = sv_from_rowdata fe.value) ∧
    sv_from_rowdata (some ([] : List Nat)) = SVal.undef ∧
    sv_from_rowdata (none : Bytes) = SVal.undef := by
  refine ⟨by simp [mkRow, hdoc, hrc], fun bs => rfl, rfl, ?_, rfl, rfl⟩
  intro f st fe hfe
  rw [final_step f st fe hfe]

/-- C10 witness: a successful sub-response with a zero-length payload
stores a present-but-empty unflagged string, and the terminal metadata of
the successful final event goes through the absent-for-empty decoder. -/
theorem doc_verbatim_meta_filtered_witness :
    (mkRow rowEmptyDoc).doc = some (newSVpvn (some [])) ∧
    newSVpvn (some ([] : List Nat)) = SVal.str [] false ∧
    (viewrow_callback noFaults initState finalOk).handle.meta
      = sv_from_rowdata finalOk.value := by
  have h := doc_verbatim_meta_filtered rowEmptyDoc
    { rc := LCB_SUCCESS, value := some [] } rfl rfl
  exact ⟨h.1, h.2.1 [], h.2.2.2.1 noFaults initState finalOk rfl⟩

end ViewRow
